import Mathlib

/-!
Verification of the Gibbs-ringing removal pipeline
(`dipy/denoise/gibbs.py`): the TV estimator `_image_tv`, the 1D
sub-voxel-shift corrector `_gibbs_removal_1d`, the frequency-domain
weight generator `_weights`, the 2D corrector `_gibbs_removal_2d`,
and the volume driver `gibbs_removal`.

The development contains several cooperating shallow embeddings of the
same source file:

* a NumPy dtype model tracing how array dtypes propagate through the
  pipeline (`promote_types`, `fft2_dtype`, the copy/assignment rules);
* a shape/validation model of the driver `gibbs_removal` (axis swap,
  rank-4 flattening, and the three `raise ValueError` sites);
* a value-level model of the numeric pipeline on images modelled as
  total functions `ℕ → ℕ → ℕ → ℂ` (first two indices: the spatial
  plane; third index: the batch/slice axis), parametric in the 2D
  forward/inverse spectral transforms, which the source imports from
  SciPy (external dependency with standard semantics: they act
  independently on each trailing-index slice via `axes=(0, 1)`);
* a store model recording which buffers the in-place updates of
  `_gibbs_removal_1d` write to.
-/

set_option autoImplicit false

namespace Gibbs

/-! ### NumPy dtype model

The dtypes that can appear in this pipeline.  `promote_types` follows
NumPy promotion: same-kind pairs promote to the wider member; an
integer promotes to the smallest float that represents it exactly
(int16 to float32, int32/int64 to float64) before comparing with a
float; a complex result has the component precision of the widest
operand. -/

inductive NpDtype where
  | i16 | i32 | i64 | f16 | f32 | f64 | c64 | c128
  deriving DecidableEq, Repr

def isComplexD : NpDtype → Bool
  | .c64 => true
  | .c128 => true
  | _ => false

def isIntD : NpDtype → Bool
  | .i16 => true
  | .i32 => true
  | .i64 => true
  | _ => false

/-- Real (non-complex) dtype class. -/
def isRealD (d : NpDtype) : Bool := !(isComplexD d)

/-- A dtype whose stored values have at least single floating-point
precision (float32/float64 and the complex dtypes, whose components
are float32/float64). -/
def atLeastSingle : NpDtype → Bool
  | .f32 => true
  | .f64 => true
  | .c64 => true
  | .c128 => true
  | _ => false

/-- Component (float) precision used for promotion:
an integer maps to the smallest float holding it exactly
(NumPy: int16 to float32, int32/int64 to float64). -/
def ftypeOf : NpDtype → NpDtype
  | .i16 => .f32
  | .i32 => .f64
  | .i64 => .f64
  | .f16 => .f16
  | .f32 => .f32
  | .f64 => .f64
  | .c64 => .f32
  | .c128 => .f64

/-- Wider of two float dtypes (f16/f32/f64 only). -/
def fmax (a b : NpDtype) : NpDtype :=
  if a = .f64 ∨ b = .f64 then .f64
  else if a = .f32 ∨ b = .f32 then .f32
  else .f16

/-- Complex dtype with at least the given component precision
(there is no 16-bit-component complex type). -/
def complexOfF : NpDtype → NpDtype
  | .f64 => .c128
  | _ => .c64

/-- Wider of two integer dtypes. -/
def imax (a b : NpDtype) : NpDtype :=
  if a = .i64 ∨ b = .i64 then .i64
  else if a = .i32 ∨ b = .i32 then .i32
  else .i16

/-- `np.promote_types` restricted to the dtypes of the model. -/
def promote_types (a b : NpDtype) : NpDtype :=
  if isComplexD a ∨ isComplexD b then complexOfF (fmax (ftypeOf a) (ftypeOf b))
  else if ¬ isIntD a ∨ ¬ isIntD b then fmax (ftypeOf a) (ftypeOf b)
  else imax a b

/-- Result dtype of `scipy.fft.fft2` / `ifft2`: half and single
precision map to complex64, everything else (including integers,
which go through float64) to complex128; complex inputs keep their
dtype. -/
def fft2_dtype : NpDtype → NpDtype
  | .f16 => .c64
  | .f32 => .c64
  | .c64 => .c64
  | _ => .c128

/-- `ifft2` has the same dtype behaviour as `fft2`. -/
def ifft2_dtype : NpDtype → NpDtype := fft2_dtype

/-- `float_dtype = np.promote_types(x.dtype, np.float32)`
(`_gibbs_removal_1d`, line 95).  This is the dtype of `ssamp`, `sp`,
`sn` and of the frequency ramp `k`. -/
def float_dtype (d : NpDtype) : NpDtype := promote_types d .f32

/-- Dtype of `xs = x.copy()` (or the transposed copy) in
`_gibbs_removal_1d`, lines 99-102: `copy` preserves the dtype. -/
def gibbs1d_xs_dtype (d : NpDtype) : NpDtype := d

/-- Dtype of `isp = xs.copy()` and `isn = xs.copy()`
(`_gibbs_removal_1d`, lines 110-111). -/
def gibbs1d_isp_dtype (d : NpDtype) : NpDtype := gibbs1d_xs_dtype d

/-- Dtype of `eks = np.exp(2j * pi * k / N * s)`: `k` has dtype
`float_dtype` and is multiplied by the complex scalar `2j`, giving the
complex dtype with the component precision of `float_dtype`
(`_gibbs_removal_1d`, lines 117-126). -/
def gibbs1d_eks_dtype (d : NpDtype) : NpDtype := complexOfF (ftypeOf (float_dtype d))

/-- Dtype of the candidate magnitude image
`img_p = np.abs(ifft2(fftshift(c * eks)))` (`_gibbs_removal_1d`,
lines 127-130): `c = fft2(xs)`, products of complex dtypes promote,
and `np.abs` of a complex array is the component float dtype. -/
def gibbs1d_imgp_dtype (d : NpDtype) : NpDtype :=
  ftypeOf (ifft2_dtype (promote_types (fft2_dtype (gibbs1d_xs_dtype d)) (gibbs1d_eks_dtype d)))

/-- Dtype semantics of `a[mask] = b`: the assignment casts the values
of `b` into the dtype of `a` (`_gibbs_removal_1d`, lines 146, 151,
166). -/
def mask_assign_dtype (target _source : NpDtype) : NpDtype := target

/-- Dtype of the buffer that receives the winning candidate values,
`isp[maskp] = img_p[maskp]` (`_gibbs_removal_1d`, line 146): fancy
assignment keeps the target dtype. -/
def gibbs1d_isp_stored_dtype (d : NpDtype) : NpDtype :=
  mask_assign_dtype (gibbs1d_isp_dtype d) (gibbs1d_imgp_dtype d)

/-- NumPy kind of a dtype: integer 0, floating 1, complex 2. -/
def kindOf : NpDtype → ℕ
  | .i16 => 0
  | .i32 => 0
  | .i64 => 0
  | .f16 => 1
  | .f32 => 1
  | .f64 => 1
  | .c64 => 2
  | .c128 => 2

/-- `np.can_cast(src, dst, casting="same_kind")` on the numeric
dtypes of the model: safe casts (to an equal or higher kind) and
casts within a kind are allowed; a float or complex value can never
be cast into an integer dtype, and a complex value never into a
float dtype. -/
def same_kind_castable (src dst : NpDtype) : Bool := kindOf src ≤ kindOf dst

/-- Result dtype of `np.true_divide`: division of two integer arrays
produces float64, otherwise the promoted common dtype (with a float
or complex operand the quotient is float or complex). -/
def true_divide_dtype (a b : NpDtype) : NpDtype :=
  if isIntD a = true ∧ isIntD b = true then .f64 else promote_types a b

/-- Dtype semantics of the in-place division `target /= other`
(`np.true_divide(target, other, out=target)`, casting `same_kind`):
raises `TypeError` when the quotient dtype cannot be cast back into
the `target` buffer — in particular whenever `target` is an integer
dtype — and otherwise keeps the buffer dtype. -/
def itruediv_dtype (target other : NpDtype) : Except String NpDtype :=
  if same_kind_castable (true_divide_dtype target other) target = true then
    Except.ok target
  else
    Except.error
      "ufunc true_divide output could not be coerced to provided output parameter according to the casting rule same_kind"

/-- Dtype of the value returned by `_gibbs_removal_1d`, with the
error path of the final interpolation (lines 155-166):
`tmp = isp[idx] - isn_i` (line 162) keeps the buffer dtype of `isp`;
`tmp /= sp[idx] + sn_i` (line 163) divides that buffer in place by a
`float_dtype` array, raising `TypeError` for integer inputs (the
float quotient cannot be cast back under `same_kind`); the later
in-place `tmp *= sn_i`, `tmp += isn_i` and `xs[idx] = tmp`
(lines 164-166) stay within the surviving float/complex kinds, so on
success the output keeps the input dtype. -/
def gibbs_removal_1d_dtype (d : NpDtype) : Except String NpDtype :=
  match itruediv_dtype (gibbs1d_isp_dtype d) (float_dtype d) with
  | Except.error e => Except.error e
  | Except.ok _ => Except.ok (mask_assign_dtype (gibbs1d_xs_dtype d) (gibbs1d_imgp_dtype d))

/-- Dtype of the weights from `_weights`:
`np.promote_types(np.float32, image_dtype)` (line 197). -/
def weights_dtype (d : NpDtype) : NpDtype := promote_types .f32 d

/-- Dtype semantics of `np.abs(x, out=y)`: the float magnitudes are
cast into `y`, so the result keeps the dtype of `y`
(`_gibbs_removal_2d`, line 280, where `y` is `imagec` itself). -/
def abs_out_dtype (_src out : NpDtype) : NpDtype := out

/-- Dtype of the array returned by `_gibbs_removal_2d` (lines
275-282), propagating a `TypeError` raised inside the 1D passes: on
success, `C1 = fft2(img_c1)` is complex, `fftshift(C1) * G1` promotes
with the weight dtype, `ifft2` keeps the complex dtype, and
`np.abs(imagec, out=imagec)` keeps the dtype of `imagec`. -/
def gibbs_removal_2d_dtype (d : NpDtype) : Except String NpDtype :=
  match gibbs_removal_1d_dtype d with
  | Except.error e => Except.error e
  | Except.ok d1 =>
    let c1d := fft2_dtype d1
    let imagecd := ifft2_dtype (promote_types c1d (weights_dtype d))
    Except.ok (abs_out_dtype (ftypeOf imagecd) imagecd)

/-- Dtype of the volume returned by `gibbs_removal` (lines 285-360):
`reshape` and `swapaxes` preserve the dtype, so the outcome is that
of `_gibbs_removal_2d` — a returned dtype, or the `TypeError` raised
at the in-place division for integer inputs. -/
def gibbs_removal_dtype (d : NpDtype) : Except String NpDtype := gibbs_removal_2d_dtype d

/-- Decidable equality of modelled call outcomes. -/
instance {ε α : Type} [DecidableEq ε] [DecidableEq α] : DecidableEq (Except ε α) :=
  fun a b =>
    match a, b with
    | Except.error x, Except.error y =>
      if h : x = y then isTrue (by rw [h]) else isFalse fun hc => h (Except.error.inj hc)
    | Except.error _, Except.ok _ => isFalse fun hc => Except.noConfusion hc
    | Except.ok _, Except.error _ => isFalse fun hc => Except.noConfusion hc
    | Except.ok x, Except.ok y =>
      if h : x = y then isTrue (by rw [h]) else isFalse fun hc => h (Except.ok.inj hc)

/-- Whether the modelled call raises a `TypeError` instead of
returning. -/
def raisesTypeError (e : Except String NpDtype) : Bool :=
  match e with
  | Except.error _ => true
  | Except.ok _ => false

/-- Whether the modelled call returns an array of complex dtype
class. -/
def returnsComplex (e : Except String NpDtype) : Bool :=
  match e with
  | Except.error _ => false
  | Except.ok c => isComplexD c

/-! ### Shape and validation model of the driver `gibbs_removal`

Shapes are lists of extents.  The model mirrors the control flow of
`gibbs_removal` (lines 321-360): the `slice_axis` check, the
conditional `swapaxes(vol, slice_axis, 2)`, the rank checks, the
rank-4 flattening of the two trailing axes, the 2D correction (which
maps an array to an array over the same index space, hence preserves
the shape: every step of `_gibbs_removal_2d` is an elementwise
operation, a transform along `axes=(0, 1)`, or a broadcast multiply),
the reshape back to `inishap`, and the reverse axis swap. -/

/-- Shape effect of `np.swapaxes(v, a, b)`. -/
def swapShape (s : List ℕ) (a b : ℕ) : List ℕ :=
  (s.set a (s.getD b 0)).set b (s.getD a 0)

/-- Shape effect of `np.reshape`: succeeds exactly when the number of
elements is preserved. -/
def reshapeShape (cur target : List ℕ) : Except String (List ℕ) :=
  if cur.prod = target.prod then Except.ok target else Except.error "cannot reshape"

/-- Validation and shape bookkeeping of `gibbs_removal`
(lines 321-360).  The error strings are the source's `ValueError`
messages (the first one concatenates two string literals without a
space, exactly as the source does).  `n_points` is accepted but never
inspected: the source performs no shape validation that involves it. -/
def gibbs_removal_shape (shape : List ℕ) (slice_axis : ℕ) (_n_points : ℕ) :
    Except String (List ℕ) :=
  let nd := shape.length
  if slice_axis > 2 then
    Except.error "Different slices have to be organized alongone of the 3 first matrix dimensions"
  else
    let v1 := if slice_axis < 2 ∧ nd > 2 then swapShape shape slice_axis 2 else shape
    if nd = 4 then
      match reshapeShape v1 [v1.getD 0 0, v1.getD 1 0, v1.getD 2 0 * v1.getD 3 0] with
      | Except.error e => Except.error e
      | Except.ok flat =>
        match reshapeShape flat v1 with
        | Except.error e => Except.error e
        | Except.ok restored =>
          Except.ok (if slice_axis < 2 ∧ nd > 2 then swapShape restored slice_axis 2 else restored)
    else if nd > 4 then Except.error "Data have to be a 4D, 3D or 2D matrix"
    else if nd < 2 then Except.error "Data is not an image"
    else Except.ok (if slice_axis < 2 ∧ nd > 2 then swapShape v1 slice_axis 2 else v1)

/-- Whether the modelled call raises a `ValueError`. -/
def raisesError (e : Except String (List ℕ)) : Bool :=
  match e with
  | Except.error _ => true
  | Except.ok _ => false

/-! ### Weight generator `_weights` (lines 196-217)

`G0` and `G1` are modelled as real-valued functions of the row and
column index; the `if` chain reproduces the assignment sequence of the
source in reverse order (a later assignment overwrites an earlier
one): the four corners are written last, then the border
rows/columns, then the interior block `[1:-1, 1:-1]`, and every
remaining entry keeps the `np.zeros` initial value. -/

/-- `np.linspace(a, b, n)` at index `i` (for `n ≥ 2`). -/
noncomputable def linspaceR (a b : ℝ) (n : ℕ) (i : ℕ) : ℝ :=
  a + (i : ℝ) * ((b - a) / ((n : ℝ) - 1))

/-- `G1` from `_weights` for an `H × W` image: interior entries are
`cosk0 / (cosk0 + cosk1)` with `cosk0 = 1 + cos(k0[i])`,
`cosk1 = 1 + cos(k1[j])`, `k0 = linspace(-pi, pi, H)`,
`k1 = linspace(-pi, pi, W)` (lines 201-209); the first and last
column get 1 (line 212) and the corners 1/2 (line 213). -/
noncomputable def weightsG1 (H W : ℕ) (i j : ℕ) : ℝ :=
  if (i = 0 ∧ j = 0) ∨ (i = H - 1 ∧ j = W - 1) ∨ (i = 0 ∧ j = W - 1) ∨ (i = H - 1 ∧ j = 0) then
    1 / 2
  else if (1 ≤ i ∧ i ≤ H - 2) ∧ (j = 0 ∨ j = W - 1) then 1
  else if (1 ≤ i ∧ i ≤ H - 2) ∧ (1 ≤ j ∧ j ≤ W - 2) then
    (1 + Real.cos (linspaceR (-Real.pi) Real.pi H i)) /
      ((1 + Real.cos (linspaceR (-Real.pi) Real.pi H i)) +
        (1 + Real.cos (linspaceR (-Real.pi) Real.pi W j)))
  else 0

/-- `G0` from `_weights`: interior entries are
`cosk1 / (cosk0 + cosk1)` (line 209); the first and last row get 1
(line 214) and the corners 1/2 (line 215). -/
noncomputable def weightsG0 (H W : ℕ) (i j : ℕ) : ℝ :=
  if (i = 0 ∧ j = 0) ∨ (i = H - 1 ∧ j = W - 1) ∨ (i = 0 ∧ j = W - 1) ∨ (i = H - 1 ∧ j = 0) then
    1 / 2
  else if (i = 0 ∨ i = H - 1) ∧ (1 ≤ j ∧ j ≤ W - 2) then 1
  else if (1 ≤ i ∧ i ≤ H - 2) ∧ (1 ≤ j ∧ j ≤ W - 2) then
    (1 + Real.cos (linspaceR (-Real.pi) Real.pi W j)) /
      ((1 + Real.cos (linspaceR (-Real.pi) Real.pi H i)) +
        (1 + Real.cos (linspaceR (-Real.pi) Real.pi W j)))
  else 0

/-! ### Value-level model of the numeric pipeline

Arrays are total functions of their indices; the first two indices are
the spatial plane, the third is the batch axis introduced by the
volume driver (a bare 2D image is the special case in which the third
index is never varied).  Real-valued NumPy arrays are embedded into
`ℂ`; `np.abs` is `Complex.abs` followed by the coercion back into `ℂ`.
The SciPy transforms `fft2`/`ifft2` (external dependency) are
parameters `F2`/`IF2`: a 2D transform receives the two spatial extents
and a plane and returns a plane, and the `axes=(0, 1)` application to
a batched array acts independently on every slice. -/

def Arr3 : Type := ℕ → ℕ → ℕ → ℂ

def Arr3R : Type := ℕ → ℕ → ℕ → ℝ

def Plane : Type := ℕ → ℕ → ℂ

/-- A 2D spectral transform: spatial extents, then the plane. -/
def Transform2 : Type := ℕ → ℕ → Plane → Plane

/-- `x.transpose((1, 0, 2))`: swap the two spatial axes. -/
def transpose01 {α : Type} (x : ℕ → ℕ → ℕ → α) : ℕ → ℕ → ℕ → α :=
  fun i j g => x j i g

/-- Application of a 2D transform `along axes=(0, 1)` of a batched
array: independently per trailing slice. -/
def applyAx01 (T : Transform2) (H W : ℕ) (x : Arr3) : Arr3 :=
  fun i j g => T H W (fun a b => x a b g) i j

/-- `scipy.fft.fftshift(x, axes=(0, 1))`, i.e. `np.roll` by `n // 2`
on each of the two spatial axes: entry `i` of the output is entry
`(i - n // 2) mod n` of the input. -/
def fftshiftAx01 (H W : ℕ) (x : Arr3) : Arr3 :=
  fun i j g => x ((i + (H - H / 2)) % H) ((j + (W - W / 2)) % W) g

/-! #### `_image_tv` (lines 11-63) -/

/-- Index into the padded array
`np.concatenate((xs[:, -n-1:], xs, xs[:, 0:n+1]), axis=1)` for an
axis of length `L`: the first `n+1` entries come from the tail of
`xs`, the middle `L` from `xs` itself, the final `n+1` from the head
of `xs` (lines 37-39; exact for `n + 1 ≤ L`, where the two wrap
slices have their full length `n+1`). -/
def padIndex (L n k : ℕ) : ℕ :=
  if k < n + 1 then L - (n + 1) + k
  else if k < n + 1 + L then k - (n + 1)
  else k - (n + 1) - L

/-- The padded array (padding along axis 1). -/
def paddedArr (L n : ℕ) (xs : Arr3) : Arr3 :=
  fun i k g => xs i (padIndex L n k) g

/-- `ptv` of `_image_tv` on an axis-1-oriented array: the base slice
difference `|xs_pad[:, n+1:-n-1] - xs_pad[:, n+2:-n]|` (lines 41-44)
plus the loop contributions for `n` in `range(1, n_points)`
(lines 50-54). -/
noncomputable def ptvCore (L n : ℕ) (xs : Arr3) : Arr3R :=
  fun i k g =>
    (List.range' 1 (n - 1)).foldl
      (fun acc m =>
        acc +
          Complex.abs
            (paddedArr L n xs i (n + 1 + m + k) g - paddedArr L n xs i (n + 2 + m + k) g))
      (Complex.abs (paddedArr L n xs i (n + 1 + k) g - paddedArr L n xs i (n + 2 + k) g))

/-- `ntv` of `_image_tv`: the base slice difference
`|xs_pad[:, n+1:-n-1] - xs_pad[:, n:-n-2]|` (lines 45-48) plus the
loop contributions (lines 55-58). -/
noncomputable def ntvCore (L n : ℕ) (xs : Arr3) : Arr3R :=
  fun i k g =>
    (List.range' 1 (n - 1)).foldl
      (fun acc m =>
        acc +
          Complex.abs
            (paddedArr L n xs i ((n + 1 + k) - m) g - paddedArr L n xs i ((n + k) - m) g))
      (Complex.abs (paddedArr L n xs i (n + 1 + k) g - paddedArr L n xs i (n + k) g))

/-- `_image_tv(x, axis, n_points)` on an `H × W` (batched) image:
orient the requested axis to axis 1 (lines 32-35), pad and take the
two directional sums, and orient back (lines 60-62). -/
noncomputable def image_tv (H W : ℕ) (x : Arr3) (axis n_points : ℕ) : Arr3R × Arr3R :=
  let xs := if axis ≠ 0 then x else transpose01 x
  let L := if axis ≠ 0 then W else H
  let ptv := ptvCore L n_points xs
  let ntv := ntvCore L n_points xs
  if axis ≠ 0 then (ptv, ntv) else (transpose01 ptv, transpose01 ntv)

/-! #### `_gibbs_removal_1d` (lines 67-170) -/

/-- The 45 shift candidates
`ssamp = np.linspace(0.02, 0.9, num=45)` (line 97). -/
noncomputable def ssamp : List ℝ :=
  (List.range 45).map (linspaceR 0.02 0.9 45)

/-- The frequency ramp `(2j * pi * k) / N` with
`k = np.linspace(-N/2, N/2 - 1, num=N)` (lines 117-118), broadcast
along axis 1 (lines 119-122). -/
noncomputable def kRamp (N : ℕ) (j : ℕ) : ℂ :=
  (2 * Complex.I * Real.pi * (linspaceR (-(N : ℝ) / 2) ((N : ℝ) / 2 - 1) N j : ℝ)) / (N : ℝ)

/-- The centered spectrum `c = fftshift(fft2(xs))` (lines 115-116). -/
def spectrumOf (F2 : Transform2) (H W : ℕ) (xs : Arr3) : Arr3 :=
  fftshiftAx01 H W (applyAx01 F2 H W xs)

/-- Positive-shift candidate image for shift `s`:
`np.abs(ifft2(fftshift(c * eks)))` with `eks = np.exp(k * s)`
(lines 124-130). -/
noncomputable def candP (F2 IF2 : Transform2) (H W : ℕ) (xs : Arr3) (s : ℝ) : Arr3 :=
  let c := spectrumOf F2 H W xs
  let img :=
    applyAx01 IF2 H W
      (fftshiftAx01 H W (fun i j g => c i j g * Complex.exp (kRamp W j * (s : ℂ))))
  fun i j g => ((Complex.abs (img i j g) : ℝ) : ℂ)

/-- Negative-shift candidate image for shift `s`:
`np.abs(ifft2(fftshift(c * np.conj(eks))))` (lines 134-138). -/
noncomputable def candN (F2 IF2 : Transform2) (H W : ℕ) (xs : Arr3) (s : ℝ) : Arr3 :=
  let c := spectrumOf F2 H W xs
  let img :=
    applyAx01 IF2 H W
      (fftshiftAx01 H W
        (fun i j g => c i j g * (starRingEnd ℂ) (Complex.exp (kRamp W j * (s : ℂ)))))
  fun i j g => ((Complex.abs (img i j g) : ℝ) : ℂ)

/-- TV score of an image: elementwise minimum of the two directional
TV fields along axis 1 (`np.minimum(tvr, tvl)`, lines 105-106 and
131-132, 139-140). -/
noncomputable def tvMin (H W : ℕ) (img : Arr3) (n_points : ℕ) : Arr3R :=
  fun i j g =>
    min ((image_tv H W img 1 n_points).1 i j g) ((image_tv H W img 1 n_points).2 i j g)

/-- Per-voxel search state of `_gibbs_removal_1d`: best candidate
images (`isp`, `isn`), best shifts (`sp`, `sn`) and best TV scores
(`tvp`, `tvn`). -/
structure SearchState where
  isp : Arr3
  isn : Arr3
  sp : Arr3R
  sn : Arr3R
  tvp : Arr3R
  tvn : Arr3R

/-- Initial search state (lines 104-113): unshifted image, zero
shifts, baseline TV score. -/
noncomputable def searchInit (H W : ℕ) (xs : Arr3) (n_points : ℕ) : SearchState :=
  { isp := xs
    isn := xs
    sp := fun _ _ _ => 0
    sn := fun _ _ _ => 0
    tvp := tvMin H W xs n_points
    tvn := tvMin H W xs n_points }

/-- One iteration of the candidate loop (lines 123-153): where the
candidate's score is strictly lower than the current best
(`maskp = tvp > tvs_p`, line 142), store the candidate value, the
shift and the score; independently for the negative direction. -/
noncomputable def searchStep (F2 IF2 : Transform2) (H W : ℕ) (xs : Arr3) (n_points : ℕ)
    (st : SearchState) (s : ℝ) : SearchState :=
  let img_p := candP F2 IF2 H W xs s
  let tvs_p := tvMin H W img_p n_points
  let img_n := candN F2 IF2 H W xs s
  let tvs_n := tvMin H W img_n n_points
  { isp := fun i j g => if st.tvp i j g > tvs_p i j g then img_p i j g else st.isp i j g
    isn := fun i j g => if st.tvn i j g > tvs_n i j g then img_n i j g else st.isn i j g
    sp := fun i j g => if st.tvp i j g > tvs_p i j g then s else st.sp i j g
    sn := fun i j g => if st.tvn i j g > tvs_n i j g then s else st.sn i j g
    tvp := fun i j g => if st.tvp i j g > tvs_p i j g then tvs_p i j g else st.tvp i j g
    tvn := fun i j g => if st.tvn i j g > tvs_n i j g then tvs_n i j g else st.tvn i j g }

/-- The full 45-candidate search: fold of `searchStep` over `ssamp`
starting from `searchInit`. -/
noncomputable def shiftSearch (F2 IF2 : Transform2) (H W : ℕ) (xs : Arr3) (n_points : ℕ) :
    SearchState :=
  ssamp.foldl (searchStep F2 IF2 H W xs n_points) (searchInit H W xs n_points)

/-- Axis-1-oriented core of `_gibbs_removal_1d`: run the search, then
interpolate at every voxel with `sp + sn != 0`
(`idx = np.nonzero(sp + sn)`, line 156) by
`tmp = (isp - isn); tmp /= sp + sn; tmp *= sn; tmp += isn`
(lines 160-166); other voxels keep the value of `xs`. -/
noncomputable def gibbs1dCore (F2 IF2 : Transform2) (H W : ℕ) (xs : Arr3) (n_points : ℕ) :
    Arr3 :=
  let st := shiftSearch F2 IF2 H W xs n_points
  fun i j g =>
    if st.sp i j g + st.sn i j g ≠ 0 then
      (st.isp i j g - st.isn i j g) / (((st.sp i j g + st.sn i j g : ℝ)) : ℂ) *
          ((st.sn i j g : ℝ) : ℂ) +
        st.isn i j g
    else xs i j g

/-- `_gibbs_removal_1d(x, axis, n_points)` on an `H × W` (batched)
image: orient the requested axis to axis 1 and copy (lines 99-102),
run the core, and orient back (lines 168-170).  `N = xs.shape[1]`
(line 114), so the oriented extents are `(W, H)` when `axis = 0`. -/
noncomputable def gibbs_removal_1d (F2 IF2 : Transform2) (H W : ℕ) (x : Arr3)
    (axis n_points : ℕ) : Arr3 :=
  if axis ≠ 0 then gibbs1dCore F2 IF2 H W x n_points
  else transpose01 (gibbs1dCore F2 IF2 W H (transpose01 x) n_points)

/-! #### `_gibbs_removal_2d` (lines 220-282) -/

/-- `_gibbs_removal_2d(image, n_points, G0, G1)` with the weights
supplied by the caller (as the driver does): correct along both axes
(lines 272-273), combine the centered spectra with the weights
(lines 275-278; the weights broadcast over the batch axis), invert
and take magnitudes (lines 279-280). -/
noncomputable def gibbs_removal_2d (F2 IF2 : Transform2) (H W : ℕ) (image : Arr3)
    (n_points : ℕ) (G0 G1 : ℕ → ℕ → ℝ) : Arr3 :=
  let img_c1 := gibbs_removal_1d F2 IF2 H W image 1 n_points
  let img_c0 := gibbs_removal_1d F2 IF2 H W image 0 n_points
  let C1 := applyAx01 F2 H W img_c1
  let C0 := applyAx01 F2 H W img_c0
  let imagec := fun i j g =>
    fftshiftAx01 H W C1 i j g * ((G1 i j : ℝ) : ℂ) +
      fftshiftAx01 H W C0 i j g * ((G0 i j : ℝ) : ℂ)
  fun i j g => ((Complex.abs (applyAx01 IF2 H W imagec i j g) : ℝ) : ℂ)

/-! #### `gibbs_removal` (lines 285-360), value level -/

def Arr4 : Type := ℕ → ℕ → ℕ → ℕ → ℂ

/-- `np.swapaxes(v, slice_axis, 2)` on a rank-3 array. -/
def swapAx2 (slice_axis : ℕ) (v : Arr3) : Arr3 :=
  if slice_axis = 0 then fun i j k => v k j i
  else if slice_axis = 1 then fun i j k => v i k j
  else v

/-- `np.swapaxes(v, slice_axis, 2)` on a rank-4 array (the trailing
gradient axis is untouched). -/
def swapAx2of4 (slice_axis : ℕ) (v : Arr4) : Arr4 :=
  if slice_axis = 0 then fun i j k g => v k j i g
  else if slice_axis = 1 then fun i j k g => v i k j g
  else v

/-- `gibbs_removal` on a rank-3 volume of extents `(s0, s1, s2)`: swap
the slice axis into position 2 when needed (lines 332-333), compute
the weights from the two leading extents (lines 344-346), run the 2D
corrector on the batch (line 352), and swap back (lines 357-358). -/
noncomputable def gibbs_removal_vol3 (F2 IF2 : Transform2) (s0 s1 s2 : ℕ) (v : Arr3)
    (slice_axis n_points : ℕ) : Arr3 :=
  let vs := if slice_axis < 2 then swapAx2 slice_axis v else v
  let d0 := if slice_axis = 0 then s2 else s0
  let d1 := if slice_axis = 1 then s2 else s1
  let corrected :=
    gibbs_removal_2d F2 IF2 d0 d1 vs n_points (weightsG0 d0 d1) (weightsG1 d0 d1)
  if slice_axis < 2 then swapAx2 slice_axis corrected else corrected

/-- `gibbs_removal` on a rank-4 volume of extents `(s0, s1, s2, s3)`:
swap the slice axis into position 2 (lines 332-333), flatten the two
trailing axes by the row-major `reshape((i0, i1, i2 * i3))`
(lines 336-338; flat batch index `m` addresses slice `(m / s3, m %
s3)`), run the 2D corrector, reshape back (`vol.reshape(inishap)`,
lines 355-356; slice `(k, g)` reads flat index `k * s3 + g`), and swap
back (lines 357-358). -/
noncomputable def gibbs_removal_vol4 (F2 IF2 : Transform2) (s0 s1 s2 s3 : ℕ) (v : Arr4)
    (slice_axis n_points : ℕ) : Arr4 :=
  let vs := if slice_axis < 2 then swapAx2of4 slice_axis v else v
  let d0 := if slice_axis = 0 then s2 else s0
  let d1 := if slice_axis = 1 then s2 else s1
  let flat : Arr3 := fun i j m => vs i j (m / s3) (m % s3)
  let corrected :=
    gibbs_removal_2d F2 IF2 d0 d1 flat n_points (weightsG0 d0 d1) (weightsG1 d0 d1)
  let unflat : Arr4 := fun i j k g => corrected i j (k * s3 + g)
  if slice_axis < 2 then swapAx2of4 slice_axis unflat else unflat

/-! ### Store model of buffer writes

NumPy arrays live in buffers; in-place updates (`isp[maskp] = ...`,
`xs[idx] = tmp`, `np.abs(imagec, out=imagec)`) write into buffers.  A
`Store` maps buffer ids to arrays.  Each embedded routine receives the
first unused id `fresh` and mirrors the source's allocations: every
`copy()` and every freshly computed array gets a new id at or above
`fresh`, and all in-place writes of the routine target those ids.
`np.swapaxes` and `np.reshape` return views, modelled as pure
functions of the viewed buffer's contents, with no write. -/

def Store : Type := ℕ → Arr3

/-- `_gibbs_removal_1d` with explicit buffers.  The input is a view
`view` (possibly of the caller's volume buffer); `xs = x.copy()` (or
the transposed copy, lines 99-102) allocates buffer `fresh`;
`isp = xs.copy()` and `isn = xs.copy()` (lines 110-111) allocate
`fresh + 1` and `fresh + 2`; the candidate loop rewrites `isp`/`isn`
in place (lines 146, 151) and the final interpolation rewrites `xs`
(line 166).  All stored values are the ones computed by the pure
model. -/
noncomputable def gibbs_removal_1d_prog (F2 IF2 : Transform2) (H W : ℕ) (view : Arr3)
    (axis n_points : ℕ) (σ : Store) (fresh : ℕ) : Store × Arr3 :=
  let Hp := if axis ≠ 0 then H else W
  let Wp := if axis ≠ 0 then W else H
  let xs : Arr3 := if axis ≠ 0 then view else transpose01 view
  let σ1 := Function.update σ fresh xs
  let σ2 := Function.update σ1 (fresh + 1) (σ1 fresh)
  let σ3 := Function.update σ2 (fresh + 2) (σ2 fresh)
  let st := shiftSearch F2 IF2 Hp Wp (σ3 fresh) n_points
  let σ4 := Function.update σ3 (fresh + 1) st.isp
  let σ5 := Function.update σ4 (fresh + 2) st.isn
  let σ6 := Function.update σ5 fresh (gibbs1dCore F2 IF2 Hp Wp (σ5 fresh) n_points)
  (σ6, if axis ≠ 0 then σ6 fresh else transpose01 (σ6 fresh))

/-- `_gibbs_removal_2d` with explicit buffers: the two 1D passes use
disjoint fresh ranges; `imagec` (the weighted spectral combination,
lines 277-278) is allocated at `fresh + 6` and `np.abs(imagec,
out=imagec)` (line 280) rewrites that same buffer. -/
noncomputable def gibbs_removal_2d_prog (F2 IF2 : Transform2) (H W : ℕ) (view : Arr3)
    (n_points : ℕ) (G0 G1 : ℕ → ℕ → ℝ) (σ : Store) (fresh : ℕ) : Store × Arr3 :=
  let r1 := gibbs_removal_1d_prog F2 IF2 H W view 1 n_points σ fresh
  let r0 := gibbs_removal_1d_prog F2 IF2 H W view 0 n_points r1.1 (fresh + 3)
  let imagec : Arr3 := fun i j g =>
    fftshiftAx01 H W (applyAx01 F2 H W r1.2) i j g * ((G1 i j : ℝ) : ℂ) +
      fftshiftAx01 H W (applyAx01 F2 H W r0.2) i j g * ((G0 i j : ℝ) : ℂ)
  let σ3 := Function.update r0.1 (fresh + 6) imagec
  let σ4 :=
    Function.update σ3 (fresh + 6)
      (fun i j g => ((Complex.abs (applyAx01 IF2 H W (σ3 (fresh + 6)) i j g) : ℝ) : ℂ))
  (σ4, σ4 (fresh + 6))

/-- `gibbs_removal` with explicit buffers, rank-3 case: the driver
only rebinds views (`np.swapaxes`, lines 333 and 358) of the caller's
buffer `volId` and computes the weights; every write happens inside
`_gibbs_removal_2d` on buffers at or above `fresh`. -/
noncomputable def gibbs_removal_prog (F2 IF2 : Transform2) (s0 s1 s2 : ℕ)
    (slice_axis n_points : ℕ) (σ : Store) (volId fresh : ℕ) : Store × Arr3 :=
  let vol := σ volId
  let vs := if slice_axis < 2 then swapAx2 slice_axis vol else vol
  let d0 := if slice_axis = 0 then s2 else s0
  let d1 := if slice_axis = 1 then s2 else s1
  let r :=
    gibbs_removal_2d_prog F2 IF2 d0 d1 vs n_points (weightsG0 d0 d1) (weightsG1 d0 d1) σ
      fresh
  (r.1, if slice_axis < 2 then swapAx2 slice_axis r.2 else r.2)

/-- The zero 2D transform, a concrete instance of the transform
parameters. -/
def zeroT : Transform2 := fun _ _ _ => fun _ _ => 0

/-- The zero image. -/
def zeroImg : Arr3 := fun _ _ _ => 0

/-- Two search states agree between batch slice `m` of the first and
batch slice `n` of the second. -/
def AgreeAt (m n : ℕ) (st st' : SearchState) : Prop :=
  ∀ i j,
    st.isp i j m = st'.isp i j n ∧ st.isn i j m = st'.isn i j n ∧
      st.sp i j m = st'.sp i j n ∧ st.sn i j m = st'.sn i j n ∧
        st.tvp i j m = st'.tvp i j n ∧ st.tvn i j m = st'.tvn i j n

/-! ## Theorems -/

/-! ### C1: output dtype class -/

/-- C1, counterexample: a single-precision real input volume does not
yield a real-valued (non-complex) output array: `np.abs(imagec,
out=imagec)` (line 280) stores the magnitudes back into the complex
buffer `imagec`, so `gibbs_removal` returns a complex64 array. -/
theorem claim1_counterexample :
    isRealD NpDtype.f32 = true ∧
      gibbs_removal_dtype NpDtype.f32 = Except.ok NpDtype.c64 ∧
        isComplexD NpDtype.c64 = true := by
  decide

/-- C1, amended: a real input never yields a real-valued output of
the input's dtype class: for float16/float32/float64 inputs,
`gibbs_removal` returns an array of complex dtype class (the
magnitudes of the final `np.abs` stored in the complex `imagec`
buffer), and for integer inputs the call raises a `TypeError` at the
in-place division `tmp /= sp[idx] + sn_i` (line 163) and returns
nothing. -/
theorem claim1_output_dtype_complex (d : NpDtype) (h : isRealD d = true) :
    (isIntD d = false → returnsComplex (gibbs_removal_dtype d) = true) ∧
      (isIntD d = true → raisesTypeError (gibbs_removal_dtype d) = true) := by
  cases d <;> revert h <;> decide

/-- C1, witness: the amended theorem applied at the single-precision
dtype (complex return) and at the int16 dtype (TypeError). -/
theorem claim1_witness :
    returnsComplex (gibbs_removal_dtype NpDtype.f32) = true ∧
      raisesTypeError (gibbs_removal_dtype NpDtype.i16) = true :=
  ⟨(claim1_output_dtype_complex NpDtype.f32 (by decide)).1 (by decide),
    (claim1_output_dtype_complex NpDtype.i16 (by decide)).2 (by decide)⟩

/-! ### C8: working precision -/

/-- C8, counterexample: for an int16 input the buffer that stores the
winning candidate voxel values (`isp`, written by
`isp[maskp] = img_p[maskp]`, line 146) has dtype int16 — not a float
dtype of at least single precision — while the candidate magnitudes
being stored are float64, so those values are truncated to the
integer input type. -/
theorem claim8_counterexample :
    gibbs1d_isp_stored_dtype NpDtype.i16 = NpDtype.i16 ∧
      atLeastSingle (gibbs1d_isp_stored_dtype NpDtype.i16) = false ∧
        gibbs1d_imgp_dtype NpDtype.i16 = NpDtype.f64 := by
  decide

/-- C8, amended: the shift-search working quantities are promoted to
at least single precision for every input dtype — `ssamp`, `sp`, `sn`
and the frequency ramp have dtype `promote_types(x.dtype, float32)`
(line 95) and the candidate magnitude images are float32/float64 —
but the image-value buffers `xs`, `isp`, `isn` keep the input dtype,
so for integer or half-precision inputs the stored correction values
are cast down to the input type; moreover integer-input calls do not
complete: they abort with a `TypeError` at the in-place division
`tmp /= sp[idx] + sn_i` (line 163), while non-integer inputs return
an array of the input dtype. -/
theorem claim8_precision (d : NpDtype) :
    atLeastSingle (float_dtype d) = true ∧ atLeastSingle (gibbs1d_imgp_dtype d) = true ∧
      gibbs1d_xs_dtype d = d ∧ gibbs1d_isp_stored_dtype d = d ∧
        (isIntD d = true → raisesTypeError (gibbs_removal_1d_dtype d) = true) ∧
          (isIntD d = false → gibbs_removal_1d_dtype d = Except.ok d) := by
  cases d <;> decide

/-- C8, witness: the amended theorem at the int16 dtype — the stored
candidate values keep the integer dtype (silent truncation at
line 146) and the call then aborts with a TypeError at line 163 —
and at the half-precision dtype, where the call completes with the
input dtype. -/
theorem claim8_witness :
    gibbs1d_isp_stored_dtype NpDtype.i16 = NpDtype.i16 ∧
      raisesTypeError (gibbs_removal_1d_dtype NpDtype.i16) = true ∧
        gibbs_removal_1d_dtype NpDtype.f16 = Except.ok NpDtype.f16 :=
  ⟨(claim8_precision NpDtype.i16).2.2.2.1,
    (claim8_precision NpDtype.i16).2.2.2.2.1 (by decide),
    (claim8_precision NpDtype.f16).2.2.2.2.2 (by decide)⟩

/-! ### C6 and C7: driver validation and shape preservation -/

/-- Flattening the two trailing extents preserves the element
count. -/
theorem reshape_flatten_ok (a b c d : ℕ) :
    reshapeShape [a, b, c, d] [a, b, c * d] = Except.ok [a, b, c * d] := by
  unfold reshapeShape
  rw [if_pos]
  simp [mul_assoc]

/-- Restoring the two trailing extents preserves the element
count. -/
theorem reshape_restore_ok (a b c d : ℕ) :
    reshapeShape [a, b, c * d] [a, b, c, d] = Except.ok [a, b, c, d] := by
  unfold reshapeShape
  rw [if_pos]
  simp [mul_assoc]

/-- C6, counterexample: an 8×8 image with default parameters has both
spatial extents below `2 * (n_points + 1) + 2 = 10`, yet
`gibbs_removal` raises no error and returns a volume: the driver
validates only `slice_axis` and the rank (lines 325-342), never the
spatial extents. -/
theorem claim6_counterexample :
    gibbs_removal_shape [8, 8] 2 3 = Except.ok [8, 8] ∧ 8 < 2 * (3 + 1) + 2 := by
  constructor
  · rfl
  · decide

/-- C6, amended: `gibbs_removal` raises an error exactly for
`slice_axis > 2` or rank outside {2, 3, 4}; degenerate spatial
extents are never rejected, for any `n_points`. -/
theorem claim6_validation (shape : List ℕ) (slice_axis n_points : ℕ) :
    raisesError (gibbs_removal_shape shape slice_axis n_points) = true ↔
      slice_axis > 2 ∨ shape.length > 4 ∨ shape.length < 2 := by
  by_cases hsa : slice_axis > 2
  · simp [gibbs_removal_shape, raisesError, hsa]
  · rcases shape with _ | ⟨a, _ | ⟨b, _ | ⟨c, _ | ⟨d, _ | ⟨e, rest⟩⟩⟩⟩⟩
    · simp [gibbs_removal_shape, raisesError, hsa]
    · simp [gibbs_removal_shape, raisesError, hsa]
    · simp [gibbs_removal_shape, raisesError, hsa]
    · simp only [gibbs_removal_shape, raisesError, List.length_cons, List.length_nil]
      interval_cases slice_axis <;>
        simp [swapShape, raisesError, reshapeShape]
    · simp only [gibbs_removal_shape, raisesError, List.length_cons, List.length_nil]
      interval_cases slice_axis <;>
        · simp only [swapShape, raisesError]
          norm_num
          simp [List.set, List.getD, reshape_flatten_ok, reshape_restore_ok, raisesError]
    · simp only [gibbs_removal_shape, raisesError, List.length_cons]
      have h5 : ¬ (5 + rest.length = 4) := by omega
      simp [hsa, h5, raisesError]

/-- C7: for every rank-2/3/4 input shape and every slice_axis in
{0, 1, 2}, the volume returned by `gibbs_removal` has exactly the
input's shape: the rank-4 flattening is exactly undone by
`vol.reshape(inishap)` and the axis swap is exactly undone by the
second `np.swapaxes`. -/
theorem claim7_shape_preserved (shape : List ℕ) (slice_axis n_points : ℕ)
    (h2 : 2 ≤ shape.length) (h4 : shape.length ≤ 4) (hsa : slice_axis ≤ 2) :
    gibbs_removal_shape shape slice_axis n_points = Except.ok shape := by
  have hsa' : ¬ slice_axis > 2 := by omega
  rcases shape with _ | ⟨a, _ | ⟨b, _ | ⟨c, _ | ⟨d, _ | ⟨e, rest⟩⟩⟩⟩⟩
  · simp at h2
  · simp at h2
  · simp [gibbs_removal_shape, hsa']
  · simp only [gibbs_removal_shape, List.length_cons, List.length_nil]
    interval_cases slice_axis <;> simp [swapShape, List.set, List.getD]
  · simp only [gibbs_removal_shape, List.length_cons, List.length_nil]
    interval_cases slice_axis <;>
      · simp only [swapShape]
        norm_num
        simp [List.set, List.getD, reshape_flatten_ok, reshape_restore_ok, swapShape]
  · simp at h4

/-- C7, witness: a concrete 2×3×4×5 volume with `slice_axis = 0`. -/
theorem claim7_witness :
    gibbs_removal_shape [2, 3, 4, 5] 0 3 = Except.ok [2, 3, 4, 5] :=
  claim7_shape_preserved [2, 3, 4, 5] 0 3 (by decide) (by decide) (by decide)

/-! ### C2: interior entries of the weight generator -/

/-- The second grid point of `linspace(-pi, pi, 3)` is 0. -/
theorem linspace_pi_three_one : linspaceR (-Real.pi) Real.pi 3 1 = 0 := by
  unfold linspaceR
  push_cast
  ring

/-- The second grid point of `linspace(-pi, pi, 5)` is `-pi/2`. -/
theorem linspace_pi_five_one : linspaceR (-Real.pi) Real.pi 5 1 = -(Real.pi / 2) := by
  unfold linspaceR
  push_cast
  ring

/-- C2, counterexample: for the 3×5 shape at interior point (1, 1),
`G1` is not `c1 / (c0 + c1)`: there `c0 = 1 + cos(0) = 2` and
`c1 = 1 + cos(-pi/2) = 1`, and the source computes
`G1 = cosk0 / (cosk0 + cosk1) = 2/3` (line 208), not `1/3`. -/
theorem claim2_counterexample :
    ¬ (weightsG1 3 5 1 1 =
        (1 + Real.cos (linspaceR (-Real.pi) Real.pi 5 1)) /
          ((1 + Real.cos (linspaceR (-Real.pi) Real.pi 3 1)) +
            (1 + Real.cos (linspaceR (-Real.pi) Real.pi 5 1)))) := by
  simp only [weightsG1]
  rw [if_neg (by decide), if_neg (by decide), if_pos (by decide)]
  rw [linspace_pi_three_one, linspace_pi_five_one, Real.cos_neg, Real.cos_pi_div_two,
    Real.cos_zero]
  norm_num

/-- C2, amended: for every shape `(H, W)` with `H, W ≥ 3` and every
interior point, the Weight Generator returns `G1 = c0 / (c0 + c1)`
and `G0 = c1 / (c0 + c1)` — each axis's correction is weighted by the
*other* axis's cosine term — with `c0 = 1 + cos(k0[i])`,
`c1 = 1 + cos(k1[j])` on the `linspace(-pi, pi, ·)` grids. -/
theorem claim2_interior_weights (H W i j : ℕ) (hH : 3 ≤ H) (hW : 3 ≤ W)
    (hi1 : 1 ≤ i) (hi2 : i ≤ H - 2) (hj1 : 1 ≤ j) (hj2 : j ≤ W - 2) :
    weightsG1 H W i j =
      (1 + Real.cos (linspaceR (-Real.pi) Real.pi H i)) /
        ((1 + Real.cos (linspaceR (-Real.pi) Real.pi H i)) +
          (1 + Real.cos (linspaceR (-Real.pi) Real.pi W j))) ∧
      weightsG0 H W i j =
        (1 + Real.cos (linspaceR (-Real.pi) Real.pi W j)) /
          ((1 + Real.cos (linspaceR (-Real.pi) Real.pi H i)) +
            (1 + Real.cos (linspaceR (-Real.pi) Real.pi W j))) := by
  constructor
  · simp only [weightsG1]
    rw [if_neg (by omega), if_neg (by omega), if_pos (by omega)]
  · simp only [weightsG0]
    rw [if_neg (by omega), if_neg (by omega), if_pos (by omega)]

/-- C2, witness: the amended theorem at the 3×5 shape, interior point
(1, 1). -/
theorem claim2_witness :
    weightsG1 3 5 1 1 =
      (1 + Real.cos (linspaceR (-Real.pi) Real.pi 3 1)) /
        ((1 + Real.cos (linspaceR (-Real.pi) Real.pi 3 1)) +
          (1 + Real.cos (linspaceR (-Real.pi) Real.pi 5 1))) ∧
      weightsG0 3 5 1 1 =
        (1 + Real.cos (linspaceR (-Real.pi) Real.pi 5 1)) /
          ((1 + Real.cos (linspaceR (-Real.pi) Real.pi 3 1)) +
            (1 + Real.cos (linspaceR (-Real.pi) Real.pi 5 1))) :=
  claim2_interior_weights 3 5 1 1 (by decide) (by decide) (by decide) (by decide)
    (by decide) (by decide)

/-! ### C4: the TV estimator treats its axis as periodic -/

/-- Folding `+ f` over `range(1, k + 1)` starting from `f 0` is the
sum of `f` over `0..k`. -/
theorem foldl_add_range' (f : ℕ → ℝ) (k : ℕ) :
    (List.range' 1 k).foldl (fun a m => a + f m) (f 0) =
      ∑ m ∈ Finset.range (k + 1), f m := by
  induction k with
  | zero => simp
  | succ k ih =>
    rw [List.range'_concat, List.foldl_append, ih]
    simp [Finset.sum_range_succ, Nat.add_comm 1 k]

/-- The padded index for the first slice of the `ptv` difference:
position `k` plus forward offset `u` wraps to `(k + u) mod L`. -/
theorem padIndex_of_add (L n k u : ℕ) (hL : n + 1 ≤ L) (hk : k < L) (hu : u ≤ n) :
    padIndex L n (n + 1 + u + k) = (k + u) % L := by
  unfold padIndex
  split_ifs with h1 h2
  · omega
  · rw [Nat.mod_eq_of_lt (by omega)]
    omega
  · rw [Nat.mod_eq_sub_mod (by omega), Nat.mod_eq_of_lt (by omega)]
    omega

/-- The padded index for the second slice of the `ptv` difference:
position `k` plus forward offset `u + 1` wraps to `(k + u + 1) mod
L`. -/
theorem padIndex_of_add2 (L n k u : ℕ) (hL : n + 1 ≤ L) (hk : k < L) (hu : u < n) :
    padIndex L n (n + 2 + u + k) = (k + u + 1) % L := by
  unfold padIndex
  split_ifs with h1 h2
  · omega
  · rw [Nat.mod_eq_of_lt (by omega)]
    omega
  · rw [Nat.mod_eq_sub_mod (by omega), Nat.mod_eq_of_lt (by omega)]
    omega

/-- The padded index for the first slice of the `ntv` difference:
position `k` minus backward offset `u` wraps to `(k + L - u) mod
L`. -/
theorem padIndex_of_sub (L n k u : ℕ) (hL : n + 1 ≤ L) (hk : k < L) (hu : u ≤ n) :
    padIndex L n ((n + 1 + k) - u) = ((k + L) - u) % L := by
  unfold padIndex
  split_ifs with h1 h2
  · rw [Nat.mod_eq_of_lt (by omega)]
    omega
  · rw [Nat.mod_eq_sub_mod (by omega), Nat.mod_eq_of_lt (by omega)]
    omega
  · omega

/-- The padded index for the second slice of the `ntv` difference:
position `k` minus backward offset `u + 1` wraps to
`(k + L - (u + 1)) mod L`. -/
theorem padIndex_of_sub2 (L n k u : ℕ) (hL : n + 1 ≤ L) (hk : k < L) (hu : u < n) :
    padIndex L n ((n + k) - u) = ((k + L) - (u + 1)) % L := by
  unfold padIndex
  split_ifs with h1 h2
  · rw [Nat.mod_eq_of_lt (by omega)]
    omega
  · rw [Nat.mod_eq_sub_mod (by omega), Nat.mod_eq_of_lt (by omega)]
    omega
  · omega

/-- The oriented `ptv` field equals the sum of the `n` forward
neighbor differences with periodic (mod `L`) indices. -/
theorem ptvCore_periodic (L n : ℕ) (xs : Arr3) (i k g : ℕ)
    (hn : 1 ≤ n) (hL : n + 1 ≤ L) (hk : k < L) :
    ptvCore L n xs i k g =
      ∑ m ∈ Finset.range n,
        Complex.abs (xs i ((k + m) % L) g - xs i ((k + m + 1) % L) g) := by
  have h1 :
      ptvCore L n xs i k g =
        (List.range' 1 (n - 1)).foldl
          (fun acc m =>
            acc +
              (fun u =>
                  Complex.abs
                    (xs i (padIndex L n (n + 1 + u + k)) g -
                      xs i (padIndex L n (n + 2 + u + k)) g))
                m)
          ((fun u =>
              Complex.abs
                (xs i (padIndex L n (n + 1 + u + k)) g -
                  xs i (padIndex L n (n + 2 + u + k)) g))
            0) :=
    rfl
  rw [h1, foldl_add_range', show n - 1 + 1 = n from by omega]
  refine Finset.sum_congr rfl fun m hm => ?_
  have hm' : m < n := Finset.mem_range.mp hm
  rw [padIndex_of_add L n k m hL hk (by omega), padIndex_of_add2 L n k m hL hk hm']

/-- The oriented `ntv` field equals the sum of the `n` backward
neighbor differences with periodic (mod `L`) indices. -/
theorem ntvCore_periodic (L n : ℕ) (xs : Arr3) (i k g : ℕ)
    (hn : 1 ≤ n) (hL : n + 1 ≤ L) (hk : k < L) :
    ntvCore L n xs i k g =
      ∑ m ∈ Finset.range n,
        Complex.abs (xs i (((k + L) - m) % L) g - xs i (((k + L) - (m + 1)) % L) g) := by
  have h1 :
      ntvCore L n xs i k g =
        (List.range' 1 (n - 1)).foldl
          (fun acc m =>
            acc +
              (fun u =>
                  Complex.abs
                    (xs i (padIndex L n ((n + 1 + k) - u)) g -
                      xs i (padIndex L n ((n + k) - u)) g))
                m)
          ((fun u =>
              Complex.abs
                (xs i (padIndex L n ((n + 1 + k) - u)) g -
                  xs i (padIndex L n ((n + k) - u)) g))
            0) :=
    rfl
  rw [h1, foldl_add_range', show n - 1 + 1 = n from by omega]
  refine Finset.sum_congr rfl fun m hm => ?_
  have hm' : m < n := Finset.mem_range.mp hm
  rw [padIndex_of_sub L n k m hL hk (by omega), padIndex_of_sub2 L n k m hL hk hm']

/-- C4: for both axes, the TV Estimator's positive field at every
position sums the `n` forward neighbor differences and the negative
field the `n` backward neighbor differences, with indices taken mod
the axis length — the axis is periodic with no special edge formula
(`(k + L - m) % L` is `(k - m) mod L` in integer arithmetic). -/
theorem claim4_image_tv_periodic (H W : ℕ) (x : Arr3) (n i j g : ℕ)
    (hn : 1 ≤ n) (hW : n + 1 ≤ W) (hj : j < W) (hH : n + 1 ≤ H) (hi : i < H) :
    (image_tv H W x 1 n).1 i j g =
        ∑ m ∈ Finset.range n,
          Complex.abs (x i ((j + m) % W) g - x i ((j + m + 1) % W) g) ∧
      (image_tv H W x 1 n).2 i j g =
          ∑ m ∈ Finset.range n,
            Complex.abs (x i (((j + W) - m) % W) g - x i (((j + W) - (m + 1)) % W) g) ∧
        (image_tv H W x 0 n).1 i j g =
            ∑ m ∈ Finset.range n,
              Complex.abs (x ((i + m) % H) j g - x ((i + m + 1) % H) j g) ∧
          (image_tv H W x 0 n).2 i j g =
            ∑ m ∈ Finset.range n,
              Complex.abs (x (((i + H) - m) % H) j g - x (((i + H) - (m + 1)) % H) j g) := by
  refine ⟨?_, ?_, ?_, ?_⟩
  · simpa [image_tv] using ptvCore_periodic W n x i j g hn hW hj
  · simpa [image_tv] using ntvCore_periodic W n x i j g hn hW hj
  · simpa [image_tv, transpose01] using ptvCore_periodic H n (transpose01 x) j i g hn hH hi
  · simpa [image_tv, transpose01] using ntvCore_periodic H n (transpose01 x) j i g hn hH hi

/-- C4, witness: the theorem at a concrete 4×4 image, `n_points = 1`,
position (0, 0). -/
theorem claim4_witness :
    (image_tv 4 4 (fun a b c => ((a + 2 * b + c : ℕ) : ℂ)) 1 1).1 0 0 0 =
        ∑ m ∈ Finset.range 1,
          Complex.abs
            ((fun a b c => ((a + 2 * b + c : ℕ) : ℂ)) 0 ((0 + m) % 4) 0 -
              (fun a b c => ((a + 2 * b + c : ℕ) : ℂ)) 0 ((0 + m + 1) % 4) 0) ∧
      (image_tv 4 4 (fun a b c => ((a + 2 * b + c : ℕ) : ℂ)) 1 1).2 0 0 0 =
          ∑ m ∈ Finset.range 1,
            Complex.abs
              ((fun a b c => ((a + 2 * b + c : ℕ) : ℂ)) 0 (((0 + 4) - m) % 4) 0 -
                (fun a b c => ((a + 2 * b + c : ℕ) : ℂ)) 0 (((0 + 4) - (m + 1)) % 4) 0) ∧
        (image_tv 4 4 (fun a b c => ((a + 2 * b + c : ℕ) : ℂ)) 0 1).1 0 0 0 =
            ∑ m ∈ Finset.range 1,
              Complex.abs
                ((fun a b c => ((a + 2 * b + c : ℕ) : ℂ)) ((0 + m) % 4) 0 0 -
                  (fun a b c => ((a + 2 * b + c : ℕ) : ℂ)) ((0 + m + 1) % 4) 0 0) ∧
          (image_tv 4 4 (fun a b c => ((a + 2 * b + c : ℕ) : ℂ)) 0 1).2 0 0 0 =
            ∑ m ∈ Finset.range 1,
              Complex.abs
                ((fun a b c => ((a + 2 * b + c : ℕ) : ℂ)) (((0 + 4) - m) % 4) 0 0 -
                  (fun a b c => ((a + 2 * b + c : ℕ) : ℂ)) (((0 + 4) - (m + 1)) % 4) 0 0) :=
  claim4_image_tv_periodic 4 4 (fun a b c => ((a + 2 * b + c : ℕ) : ℂ)) 1 0 0 0
    (by decide) (by decide) (by decide) (by decide) (by decide)

/-! ### C5: the TV scores only decrease during the search -/

/-- One candidate step never increases per-voxel best TV scores: each
score is replaced only when the candidate's score is strictly
lower. -/
theorem searchStep_tv_le (F2 IF2 : Transform2) (H W : ℕ) (xs : Arr3) (n : ℕ)
    (st : SearchState) (s : ℝ) (i j g : ℕ) :
    (searchStep F2 IF2 H W xs n st s).tvp i j g ≤ st.tvp i j g ∧
      (searchStep F2 IF2 H W xs n st s).tvn i j g ≤ st.tvn i j g := by
  simp only [searchStep]
  constructor
  · split_ifs with h
    · exact le_of_lt h
    · exact le_refl _
  · split_ifs with h
    · exact le_of_lt h
    · exact le_refl _

/-- Folding candidate steps never increases per-voxel best TV
scores. -/
theorem foldl_searchStep_tv_le (F2 IF2 : Transform2) (H W : ℕ) (xs : Arr3) (n : ℕ)
    (l : List ℝ) (st : SearchState) (i j g : ℕ) :
    (l.foldl (searchStep F2 IF2 H W xs n) st).tvp i j g ≤ st.tvp i j g ∧
      (l.foldl (searchStep F2 IF2 H W xs n) st).tvn i j g ≤ st.tvn i j g := by
  induction l generalizing st with
  | nil => exact ⟨le_refl _, le_refl _⟩
  | cons s l ih =>
    have h1 := ih (searchStep F2 IF2 H W xs n st s)
    have h2 := searchStep_tv_le F2 IF2 H W xs n st s i j g
    exact ⟨le_trans h1.1 h2.1, le_trans h1.2 h2.2⟩

/-- C5: throughout the fold over the shift candidates the per-voxel
best positive and best negative TV scores are non-increasing (each
appended candidate can only lower them), and in particular the final
scores after the 45-candidate search are at most the baseline
(zero-shift) TV score `min(tvr, tvl)` of the unshifted image. -/
theorem claim5_tv_monotone (F2 IF2 : Transform2) (H W : ℕ) (xs : Arr3) (n : ℕ) :
    (∀ (l : List ℝ) (s : ℝ) (i j g : ℕ),
        ((l ++ [s]).foldl (searchStep F2 IF2 H W xs n) (searchInit H W xs n)).tvp i j g ≤
            (l.foldl (searchStep F2 IF2 H W xs n) (searchInit H W xs n)).tvp i j g ∧
          ((l ++ [s]).foldl (searchStep F2 IF2 H W xs n) (searchInit H W xs n)).tvn i j g ≤
            (l.foldl (searchStep F2 IF2 H W xs n) (searchInit H W xs n)).tvn i j g) ∧
      ∀ i j g : ℕ,
        (shiftSearch F2 IF2 H W xs n).tvp i j g ≤ tvMin H W xs n i j g ∧
          (shiftSearch F2 IF2 H W xs n).tvn i j g ≤ tvMin H W xs n i j g := by
  constructor
  · intro l s i j g
    rw [List.foldl_append]
    exact searchStep_tv_le F2 IF2 H W xs n _ s i j g
  · intro i j g
    exact foldl_searchStep_tv_le F2 IF2 H W xs n ssamp (searchInit H W xs n) i j g

/-! ### C3: the final sub-voxel interpolation -/

/-- Every shift candidate is positive:
`linspace(0.02, 0.9, 45)` starts at 0.02 with step 0.02. -/
theorem ssamp_pos : ∀ s ∈ ssamp, 0 < s := by
  intro s hs
  simp only [ssamp, List.mem_map, List.mem_range] at hs
  obtain ⟨m, _, rfl⟩ := hs
  unfold linspaceR
  have : (0 : ℝ) ≤ (m : ℝ) * ((0.9 - 0.02) / ((45 : ℕ) - 1)) := by positivity
  norm_num at this ⊢
  linarith

/-- Folding candidate steps with positive candidate shifts keeps the
per-voxel best shifts nonnegative. -/
theorem foldl_searchStep_s_nonneg (F2 IF2 : Transform2) (H W : ℕ) (xs : Arr3) (n : ℕ)
    (l : List ℝ) (hl : ∀ s ∈ l, 0 < s) (st : SearchState)
    (hst : ∀ i j g : ℕ, 0 ≤ st.sp i j g ∧ 0 ≤ st.sn i j g) (i j g : ℕ) :
    0 ≤ (l.foldl (searchStep F2 IF2 H W xs n) st).sp i j g ∧
      0 ≤ (l.foldl (searchStep F2 IF2 H W xs n) st).sn i j g := by
  induction l generalizing st with
  | nil => exact hst i j g
  | cons s l ih =>
    refine ih (fun t ht => hl t (List.mem_cons_of_mem s ht)) _ ?_
    intro a b c
    have hs : (0 : ℝ) < s := hl s (List.mem_cons_self s l)
    constructor
    · simp only [searchStep]
      split_ifs
      · exact le_of_lt hs
      · exact (hst a b c).1
    · simp only [searchStep]
      split_ifs
      · exact le_of_lt hs
      · exact (hst a b c).2

/-- The best shifts found by the 45-candidate search are
nonnegative. -/
theorem shiftSearch_s_nonneg (F2 IF2 : Transform2) (H W : ℕ) (xs : Arr3) (n i j g : ℕ) :
    0 ≤ (shiftSearch F2 IF2 H W xs n).sp i j g ∧
      0 ≤ (shiftSearch F2 IF2 H W xs n).sn i j g :=
  foldl_searchStep_s_nonneg F2 IF2 H W xs n ssamp ssamp_pos (searchInit H W xs n)
    (fun _ _ _ => ⟨le_refl 0, le_refl 0⟩) i j g

/-- C3: after the 45-candidate search, a voxel whose best positive
and best negative shifts are both exactly zero keeps its original
value (`idx = np.nonzero(sp + sn)` excludes it, which by
nonnegativity of the shifts is exactly the both-zero case); every
other voxel is replaced by
`isn + (isp - isn) * sn / (sp + sn)`; when exactly one directional
shift is nonzero this collapses to the other direction's estimate. -/
theorem claim3_final_interpolation (F2 IF2 : Transform2) (H W : ℕ) (xs : Arr3)
    (n i j g : ℕ) :
    ((shiftSearch F2 IF2 H W xs n).sp i j g = 0 ∧
          (shiftSearch F2 IF2 H W xs n).sn i j g = 0 →
        gibbs1dCore F2 IF2 H W xs n i j g = xs i j g) ∧
      (¬ ((shiftSearch F2 IF2 H W xs n).sp i j g = 0 ∧
            (shiftSearch F2 IF2 H W xs n).sn i j g = 0) →
          gibbs1dCore F2 IF2 H W xs n i j g =
            (shiftSearch F2 IF2 H W xs n).isn i j g +
              ((shiftSearch F2 IF2 H W xs n).isp i j g -
                  (shiftSearch F2 IF2 H W xs n).isn i j g) *
                (((shiftSearch F2 IF2 H W xs n).sn i j g : ℝ) : ℂ) /
                  (((shiftSearch F2 IF2 H W xs n).sp i j g +
                      (shiftSearch F2 IF2 H W xs n).sn i j g : ℝ) : ℂ)) ∧
        ((shiftSearch F2 IF2 H W xs n).sp i j g ≠ 0 ∧
            (shiftSearch F2 IF2 H W xs n).sn i j g = 0 →
          gibbs1dCore F2 IF2 H W xs n i j g = (shiftSearch F2 IF2 H W xs n).isn i j g) ∧
        ((shiftSearch F2 IF2 H W xs n).sp i j g = 0 ∧
            (shiftSearch F2 IF2 H W xs n).sn i j g ≠ 0 →
          gibbs1dCore F2 IF2 H W xs n i j g = (shiftSearch F2 IF2 H W xs n).isp i j g) := by
  obtain ⟨hsp, hsn⟩ := shiftSearch_s_nonneg F2 IF2 H W xs n i j g
  refine ⟨?_, ?_, ?_, ?_⟩
  · rintro ⟨h1, h2⟩
    simp only [gibbs1dCore]
    rw [if_neg]
    simp [h1, h2]
  · intro h
    have hsum :
        (shiftSearch F2 IF2 H W xs n).sp i j g + (shiftSearch F2 IF2 H W xs n).sn i j g ≠
          0 := by
      intro hc
      exact h ⟨by linarith, by linarith⟩
    simp only [gibbs1dCore]
    rw [if_pos (by exact_mod_cast hsum)]
    ring
  · rintro ⟨h1, h2⟩
    simp only [gibbs1dCore]
    rw [if_pos (by simp [h2]; exact h1)]
    simp [h2]
  · rintro ⟨h1, h2⟩
    simp only [gibbs1dCore]
    rw [if_pos (by simp [h1]; exact h2)]
    have hc : (((shiftSearch F2 IF2 H W xs n).sn i j g : ℝ) : ℂ) ≠ 0 :=
      Complex.ofReal_ne_zero.mpr h2
    simp only [h1, zero_add]
    rw [div_mul_cancel₀ _ hc, sub_add_cancel]

/-- Folding a function that ignores the list elements returns the
initial accumulator. -/
theorem foldl_const_acc (l : List ℕ) (a : ℝ) :
    l.foldl (fun acc (_ : ℕ) => acc) a = a := by
  induction l generalizing a with
  | nil => rfl
  | cons x l ih => simp [ih a]

/-- The `ptv` field of the zero image vanishes. -/
theorem ptvCore_zero (L n i k g : ℕ) : ptvCore L n zeroImg i k g = 0 := by
  simp only [ptvCore, paddedArr, zeroImg, sub_self, map_zero, add_zero]
  exact foldl_const_acc _ 0

/-- The `ntv` field of the zero image vanishes. -/
theorem ntvCore_zero (L n i k g : ℕ) : ntvCore L n zeroImg i k g = 0 := by
  simp only [ntvCore, paddedArr, zeroImg, sub_self, map_zero, add_zero]
  exact foldl_const_acc _ 0

/-- The baseline TV score of the zero image vanishes. -/
theorem tvMin_zero (H W n i j g : ℕ) : tvMin H W zeroImg n i j g = 0 := by
  simp [tvMin, image_tv, ptvCore_zero, ntvCore_zero]

/-- Positive-shift candidates built from the zero transforms are the
zero image. -/
theorem candP_zeroT (H W : ℕ) (s : ℝ) : candP zeroT zeroT H W zeroImg s = zeroImg := by
  funext i j g
  simp [candP, applyAx01, zeroT, zeroImg]

/-- Negative-shift candidates built from the zero transforms are the
zero image. -/
theorem candN_zeroT (H W : ℕ) (s : ℝ) : candN zeroT zeroT H W zeroImg s = zeroImg := by
  funext i j g
  simp [candN, applyAx01, zeroT, zeroImg]

/-- On the zero image with the zero transforms, no candidate ever
improves the (zero) TV score, so the fold never moves the shifts or
scores away from zero. -/
theorem foldl_zero_invariant (H W n : ℕ) (l : List ℝ) (st : SearchState)
    (hst : ∀ i j g : ℕ,
      st.sp i j g = 0 ∧ st.sn i j g = 0 ∧ st.tvp i j g = 0 ∧ st.tvn i j g = 0) :
    ∀ i j g : ℕ,
      (l.foldl (searchStep zeroT zeroT H W zeroImg n) st).sp i j g = 0 ∧
        (l.foldl (searchStep zeroT zeroT H W zeroImg n) st).sn i j g = 0 ∧
          (l.foldl (searchStep zeroT zeroT H W zeroImg n) st).tvp i j g = 0 ∧
            (l.foldl (searchStep zeroT zeroT H W zeroImg n) st).tvn i j g = 0 := by
  induction l generalizing st with
  | nil => exact hst
  | cons s l ih =>
    refine ih _ ?_
    intro i j g
    obtain ⟨h1, h2, h3, h4⟩ := hst i j g
    simp only [searchStep, candP_zeroT, candN_zeroT, tvMin_zero, h1, h2, h3, h4]
    norm_num

/-- The 45-candidate search on the zero image with the zero
transforms finds no nonzero shift. -/
theorem shiftSearch_zero (H W n i j g : ℕ) :
    (shiftSearch zeroT zeroT H W zeroImg n).sp i j g = 0 ∧
      (shiftSearch zeroT zeroT H W zeroImg n).sn i j g = 0 := by
  have h :=
    foldl_zero_invariant H W n ssamp (searchInit H W zeroImg n)
      (fun i j g => ⟨rfl, rfl, tvMin_zero H W n i j g, tvMin_zero H W n i j g⟩) i j g
  exact ⟨h.1, h.2.1⟩

/-- C3, witness: on the zero image with the zero transforms both best
shifts stay zero, so the corrected voxel keeps its original value. -/
theorem claim3_witness : gibbs1dCore zeroT zeroT 2 2 zeroImg 3 0 0 0 = 0 :=
  (claim3_final_interpolation zeroT zeroT 2 2 zeroImg 3 0 0 0).1
    (shiftSearch_zero 2 2 3 0 0 0)

/-! ### C9: batch consistency of the volume driver

Every operation of the 2D corrector acts independently on each batch
slice (the transforms are applied with `axes=(0, 1)`, the weights
broadcast over the batch axis, and all updates are elementwise), so
the value at a slice depends only on the input values of that slice.
The lemmas below establish this slice-locality for each stage and for
the complete `_gibbs_removal_2d`. -/

/-- Slice-locality of the padding stage. -/
theorem paddedArr_slice (L np : ℕ) (x y : Arr3) (m n : ℕ)
    (h : ∀ a b, x a b m = y a b n) (i k : ℕ) :
    paddedArr L np x i k m = paddedArr L np y i k n := by
  simp only [paddedArr, h]

/-- Slice-locality of the `ptv` field. -/
theorem ptvCore_slice (L np : ℕ) (x y : Arr3) (m n : ℕ)
    (h : ∀ a b, x a b m = y a b n) (i k : ℕ) :
    ptvCore L np x i k m = ptvCore L np y i k n := by
  simp only [ptvCore, paddedArr, h]

/-- Slice-locality of the `ntv` field. -/
theorem ntvCore_slice (L np : ℕ) (x y : Arr3) (m n : ℕ)
    (h : ∀ a b, x a b m = y a b n) (i k : ℕ) :
    ntvCore L np x i k m = ntvCore L np y i k n := by
  simp only [ntvCore, paddedArr, h]

/-- Slice-locality of `_image_tv`, both axes and both fields. -/
theorem image_tv_slice (H W : ℕ) (x y : Arr3) (axis np m n : ℕ)
    (h : ∀ a b, x a b m = y a b n) (i j : ℕ) :
    (image_tv H W x axis np).1 i j m = (image_tv H W y axis np).1 i j n ∧
      (image_tv H W x axis np).2 i j m = (image_tv H W y axis np).2 i j n := by
  have ht : ∀ a b, transpose01 x a b m = transpose01 y a b n := fun a b => h b a
  by_cases ha : axis ≠ 0
  · simp only [image_tv, if_pos ha]
    exact ⟨ptvCore_slice W np x y m n h i j, ntvCore_slice W np x y m n h i j⟩
  · simp only [image_tv, if_neg ha]
    exact
      ⟨ptvCore_slice H np (transpose01 x) (transpose01 y) m n ht j i,
        ntvCore_slice H np (transpose01 x) (transpose01 y) m n ht j i⟩

/-- Slice-locality of the TV score. -/
theorem tvMin_slice (H W : ℕ) (x y : Arr3) (np m n : ℕ)
    (h : ∀ a b, x a b m = y a b n) (i j : ℕ) :
    tvMin H W x np i j m = tvMin H W y np i j n := by
  have h1 := image_tv_slice H W x y 1 np m n h i j
  simp only [tvMin, h1.1, h1.2]

/-- Slice-locality of the positive-shift candidate image. -/
theorem candP_slice (F2 IF2 : Transform2) (H W : ℕ) (x y : Arr3) (s : ℝ) (m n : ℕ)
    (h : ∀ a b, x a b m = y a b n) (i j : ℕ) :
    candP F2 IF2 H W x s i j m = candP F2 IF2 H W y s i j n := by
  simp only [candP, spectrumOf, applyAx01, fftshiftAx01, h]

/-- Slice-locality of the negative-shift candidate image. -/
theorem candN_slice (F2 IF2 : Transform2) (H W : ℕ) (x y : Arr3) (s : ℝ) (m n : ℕ)
    (h : ∀ a b, x a b m = y a b n) (i j : ℕ) :
    candN F2 IF2 H W x s i j m = candN F2 IF2 H W y s i j n := by
  simp only [candN, spectrumOf, applyAx01, fftshiftAx01, h]

/-- Slice-locality of one candidate step of the search. -/
theorem searchStep_slice (F2 IF2 : Transform2) (H W np : ℕ) (x y : Arr3) (m n : ℕ)
    (h : ∀ a b, x a b m = y a b n) (st st' : SearchState) (hst : AgreeAt m n st st')
    (s : ℝ) :
    AgreeAt m n (searchStep F2 IF2 H W x np st s) (searchStep F2 IF2 H W y np st' s) := by
  intro i j
  obtain ⟨e1, e2, e3, e4, e5, e6⟩ := hst i j
  have hp : ∀ a b, candP F2 IF2 H W x s a b m = candP F2 IF2 H W y s a b n := fun a b =>
    candP_slice F2 IF2 H W x y s m n h a b
  have hq : ∀ a b, candN F2 IF2 H W x s a b m = candN F2 IF2 H W y s a b n := fun a b =>
    candN_slice F2 IF2 H W x y s m n h a b
  have htp :
      tvMin H W (candP F2 IF2 H W x s) np i j m =
        tvMin H W (candP F2 IF2 H W y s) np i j n :=
    tvMin_slice H W _ _ np m n hp i j
  have htn :
      tvMin H W (candN F2 IF2 H W x s) np i j m =
        tvMin H W (candN F2 IF2 H W y s) np i j n :=
    tvMin_slice H W _ _ np m n hq i j
  simp only [searchStep]
  rw [e1, e2, e3, e4, e5, e6, htp, htn, hp i j, hq i j]
  exact ⟨rfl, rfl, rfl, rfl, rfl, rfl⟩

/-- Slice-locality of the fold over any candidate list. -/
theorem foldl_searchStep_slice (F2 IF2 : Transform2) (H W np : ℕ) (x y : Arr3) (m n : ℕ)
    (h : ∀ a b, x a b m = y a b n) (l : List ℝ) (st st' : SearchState)
    (hst : AgreeAt m n st st') :
    AgreeAt m n (l.foldl (searchStep F2 IF2 H W x np) st)
      (l.foldl (searchStep F2 IF2 H W y np) st') := by
  induction l generalizing st st' with
  | nil => exact hst
  | cons s l ih =>
    exact ih _ _ (searchStep_slice F2 IF2 H W np x y m n h st st' hst s)

/-- Slice-locality of the initial search state. -/
theorem searchInit_slice (H W np : ℕ) (x y : Arr3) (m n : ℕ)
    (h : ∀ a b, x a b m = y a b n) :
    AgreeAt m n (searchInit H W x np) (searchInit H W y np) := by
  intro i j
  exact
    ⟨h i j, h i j, rfl, rfl, tvMin_slice H W x y np m n h i j,
      tvMin_slice H W x y np m n h i j⟩

/-- Slice-locality of the complete 45-candidate search. -/
theorem shiftSearch_slice (F2 IF2 : Transform2) (H W np : ℕ) (x y : Arr3) (m n : ℕ)
    (h : ∀ a b, x a b m = y a b n) :
    AgreeAt m n (shiftSearch F2 IF2 H W x np) (shiftSearch F2 IF2 H W y np) :=
  foldl_searchStep_slice F2 IF2 H W np x y m n h ssamp _ _
    (searchInit_slice H W np x y m n h)

/-- Slice-locality of the axis-1-oriented 1D corrector. -/
theorem gibbs1dCore_slice (F2 IF2 : Transform2) (H W np : ℕ) (x y : Arr3) (m n : ℕ)
    (h : ∀ a b, x a b m = y a b n) (i j : ℕ) :
    gibbs1dCore F2 IF2 H W x np i j m = gibbs1dCore F2 IF2 H W y np i j n := by
  obtain ⟨e1, e2, e3, e4, _, _⟩ := shiftSearch_slice F2 IF2 H W np x y m n h i j
  simp only [gibbs1dCore]
  rw [e1, e2, e3, e4, h i j]

/-- Slice-locality of `_gibbs_removal_1d`, both axes. -/
theorem gibbs_removal_1d_slice (F2 IF2 : Transform2) (H W : ℕ) (x y : Arr3)
    (axis np m n : ℕ) (h : ∀ a b, x a b m = y a b n) (i j : ℕ) :
    gibbs_removal_1d F2 IF2 H W x axis np i j m =
      gibbs_removal_1d F2 IF2 H W y axis np i j n := by
  have ht : ∀ a b, transpose01 x a b m = transpose01 y a b n := fun a b => h b a
  by_cases ha : axis ≠ 0
  · simp only [gibbs_removal_1d, if_pos ha]
    exact gibbs1dCore_slice F2 IF2 H W np x y m n h i j
  · simp only [gibbs_removal_1d, if_neg ha, transpose01]
    exact gibbs1dCore_slice F2 IF2 W H np (transpose01 x) (transpose01 y) m n ht j i

/-- Slice-locality of `_gibbs_removal_2d`: the corrected value at a
batch slice depends only on the input values of that slice. -/
theorem gibbs_removal_2d_slice (F2 IF2 : Transform2) (H W np : ℕ) (G0 G1 : ℕ → ℕ → ℝ)
    (x y : Arr3) (m n : ℕ) (h : ∀ a b, x a b m = y a b n) (i j : ℕ) :
    gibbs_removal_2d F2 IF2 H W x np G0 G1 i j m =
      gibbs_removal_2d F2 IF2 H W y np G0 G1 i j n := by
  have h1 : ∀ a b,
      gibbs_removal_1d F2 IF2 H W x 1 np a b m =
        gibbs_removal_1d F2 IF2 H W y 1 np a b n := fun a b =>
    gibbs_removal_1d_slice F2 IF2 H W x y 1 np m n h a b
  have h0 : ∀ a b,
      gibbs_removal_1d F2 IF2 H W x 0 np a b m =
        gibbs_removal_1d F2 IF2 H W y 0 np a b n := fun a b =>
    gibbs_removal_1d_slice F2 IF2 H W x y 0 np m n h a b
  simp only [gibbs_removal_2d, applyAx01, fftshiftAx01, h1, h0]

/-- C9: correcting a rank-4 volume equals, slice by slice, the
independent correction of each of its rank-3 gradient sub-volumes
with the same `slice_axis` and `n_points`: the rank-4 flattening maps
sub-volume `g`, slice `k` to flat batch index `k * s3 + g`, and the
2D corrector is slice-local. -/
theorem claim9_batch_consistency (F2 IF2 : Transform2) (s0 s1 s2 s3 : ℕ) (v : Arr4)
    (slice_axis n_points : ℕ) (hsa : slice_axis ≤ 2) (i j k g : ℕ) (hg : g < s3) :
    gibbs_removal_vol4 F2 IF2 s0 s1 s2 s3 v slice_axis n_points i j k g =
      gibbs_removal_vol3 F2 IF2 s0 s1 s2 (fun a b c => v a b c g) slice_axis n_points
        i j k := by
  have hs3 : 0 < s3 := by omega
  have hdiv : ∀ t : ℕ, (t * s3 + g) / s3 = t := by
    intro t
    rw [Nat.mul_comm t s3, Nat.mul_add_div hs3, Nat.div_eq_of_lt hg, Nat.add_zero]
  have hmod : ∀ t : ℕ, (t * s3 + g) % s3 = g := by
    intro t
    rw [Nat.mul_comm t s3, Nat.mul_add_mod, Nat.mod_eq_of_lt hg]
  interval_cases slice_axis
  · simp only [gibbs_removal_vol4, gibbs_removal_vol3, swapAx2, swapAx2of4]
    norm_num
    exact
      gibbs_removal_2d_slice F2 IF2 s2 s1 n_points (weightsG0 s2 s1) (weightsG1 s2 s1)
        _ _ (i * s3 + g) i (fun a b => by simp only [hdiv, hmod]) k j
  · simp only [gibbs_removal_vol4, gibbs_removal_vol3, swapAx2, swapAx2of4]
    norm_num
    exact
      gibbs_removal_2d_slice F2 IF2 s0 s2 n_points (weightsG0 s0 s2) (weightsG1 s0 s2)
        _ _ (j * s3 + g) j (fun a b => by simp only [hdiv, hmod]) i k
  · simp only [gibbs_removal_vol4, gibbs_removal_vol3, swapAx2, swapAx2of4]
    norm_num
    exact
      gibbs_removal_2d_slice F2 IF2 s0 s1 n_points (weightsG0 s0 s1) (weightsG1 s0 s1)
        _ _ (k * s3 + g) k (fun a b => by simp only [hdiv, hmod]) i j

/-- C9, witness: a concrete 2×2×2×2 volume with `slice_axis = 2`. -/
theorem claim9_witness :
    gibbs_removal_vol4 zeroT zeroT 2 2 2 2 (fun _ _ _ _ => 0) 2 3 0 0 0 1 =
      gibbs_removal_vol3 zeroT zeroT 2 2 2
        (fun a b c => (fun _ _ _ _ => (0 : ℂ)) a b c 1) 2 3 0 0 0 :=
  claim9_batch_consistency zeroT zeroT 2 2 2 2 (fun _ _ _ _ => 0) 2 3 (by decide) 0 0 0 1
    (by decide)

/-! ### C10: no call mutates its input buffer -/

/-- `_gibbs_removal_1d` writes only to the buffers it allocates
(`fresh`, `fresh + 1`, `fresh + 2`): every pre-existing buffer is
untouched. -/
theorem gibbs_removal_1d_prog_frame (F2 IF2 : Transform2) (H W : ℕ) (view : Arr3)
    (axis n_points : ℕ) (σ : Store) (fresh bufId : ℕ) (hb : bufId < fresh) :
    (gibbs_removal_1d_prog F2 IF2 H W view axis n_points σ fresh).1 bufId = σ bufId := by
  have h0 : bufId ≠ fresh := by omega
  have h1 : bufId ≠ fresh + 1 := by omega
  have h2 : bufId ≠ fresh + 2 := by omega
  simp only [gibbs_removal_1d_prog, Function.update_noteq h0, Function.update_noteq h1,
    Function.update_noteq h2]

/-- `_gibbs_removal_2d` writes only to the buffers of its two 1D
passes and its own `imagec` buffer (`fresh` through `fresh + 6`):
every pre-existing buffer is untouched. -/
theorem gibbs_removal_2d_prog_frame (F2 IF2 : Transform2) (H W : ℕ) (view : Arr3)
    (n_points : ℕ) (G0 G1 : ℕ → ℕ → ℝ) (σ : Store) (fresh bufId : ℕ)
    (hb : bufId < fresh) :
    (gibbs_removal_2d_prog F2 IF2 H W view n_points G0 G1 σ fresh).1 bufId = σ bufId := by
  have h6 : bufId ≠ fresh + 6 := by omega
  simp only [gibbs_removal_2d_prog, Function.update_noteq h6]
  rw [gibbs_removal_1d_prog_frame F2 IF2 H W view 0 n_points _ (fresh + 3) bufId
      (by omega),
    gibbs_removal_1d_prog_frame F2 IF2 H W view 1 n_points σ fresh bufId hb]

/-- The driver only rebinds views; its writes are those of
`_gibbs_removal_2d`. -/
theorem gibbs_removal_prog_frame (F2 IF2 : Transform2) (s0 s1 s2 : ℕ)
    (slice_axis n_points : ℕ) (σ : Store) (volId fresh bufId : ℕ) (hb : bufId < fresh) :
    (gibbs_removal_prog F2 IF2 s0 s1 s2 slice_axis n_points σ volId fresh).1 bufId =
      σ bufId := by
  simp only [gibbs_removal_prog]
  exact gibbs_removal_2d_prog_frame F2 IF2 _ _ _ n_points _ _ σ fresh bufId hb

/-- C10: a call to `gibbs_removal` — and likewise a call to either
internal component — leaves the caller's volume buffer exactly as it
was: `xs = x.copy()` (lines 99-102) and the other allocations put
every in-place write (`isp[maskp] = ...`, `sp[maskp] = s`,
`xs[idx] = tmp`, `np.abs(imagec, out=imagec)`) on freshly allocated
buffers, and `np.swapaxes`/`np.reshape` only create views. -/
theorem claim10_no_input_mutation (F2 IF2 : Transform2) (s0 s1 s2 : ℕ)
    (slice_axis n_points : ℕ) (σ : Store) (volId fresh : ℕ) (h : volId < fresh) :
    (gibbs_removal_prog F2 IF2 s0 s1 s2 slice_axis n_points σ volId fresh).1 volId =
        σ volId ∧
      (∀ (H W axis : ℕ) (view : Arr3),
          (gibbs_removal_1d_prog F2 IF2 H W view axis n_points σ fresh).1 volId =
            σ volId) ∧
        ∀ (H W : ℕ) (view : Arr3) (G0 G1 : ℕ → ℕ → ℝ),
          (gibbs_removal_2d_prog F2 IF2 H W view n_points G0 G1 σ fresh).1 volId =
            σ volId := by
  refine ⟨gibbs_removal_prog_frame F2 IF2 s0 s1 s2 slice_axis n_points σ volId fresh
      volId h, fun H W axis view => ?_, fun H W view G0 G1 => ?_⟩
  · exact gibbs_removal_1d_prog_frame F2 IF2 H W view axis n_points σ fresh volId h
  · exact gibbs_removal_2d_prog_frame F2 IF2 H W view n_points G0 G1 σ fresh volId h

/-- C10, witness: a concrete store with the volume in buffer 0 and
`fresh = 1`: the driver leaves buffer 0 unchanged. -/
theorem claim10_witness :
    (gibbs_removal_prog zeroT zeroT 2 2 2 2 3 (fun _ => zeroImg) 0 1).1 0 = zeroImg :=
  (claim10_no_input_mutation zeroT zeroT 2 2 2 2 3 (fun _ => zeroImg) 0 1 (by decide)).1

end Gibbs
